import Mathlib

namespace Spec2Proof

/-!
Verification of the core of the Gemini live-voice web application
(`src/index.tsx`): the base64 helpers, the inlined `AudioProcessor`
worklet (resampler/framer), the playback queue, the session/periodic
image-sending state machine, and the websocket close-status logic.

Conventions of the embedding:
* JavaScript number arithmetic is modelled exactly over `ℚ`
  (the concrete inputs used in the theorems below are exactly
  representable as doubles, so no rounding behaviour is lost there).
* `ArrayBuffer`s / binary strings are modelled as `List ℕ` of byte
  values; `Float32Array` contents as `List ℚ`.
* The single-threaded JS event loop is modelled as a step function on an
  explicit state record; each event-loop task (an event callback, or the
  continuation of an `await`) is one step.
-/

/-! ### Base64 helpers (`arrayBufferToBase64` / `base64ToArrayBuffer`)

`window.btoa` / `window.atob` are browser builtins; they are modelled
from their specification (RFC 4648 base64 over latin-1 binary strings,
with `=` padding).  A binary string is represented by the list of its
char codes, which for `String.fromCharCode`/`charCodeAt` on bytes is the
byte list itself. -/

def base64Chars : List Char :=
  ['A','B','C','D','E','F','G','H','I','J','K','L','M',
   'N','O','P','Q','R','S','T','U','V','W','X','Y','Z',
   'a','b','c','d','e','f','g','h','i','j','k','l','m',
   'n','o','p','q','r','s','t','u','v','w','x','y','z',
   '0','1','2','3','4','5','6','7','8','9','+','/']

/-- The alphabet character for a sextet value. -/
def sextetChar (n : ℕ) : Char := base64Chars.getD n '?'

/-- The sextet value of an alphabet character. -/
def charSextet (c : Char) : ℕ := base64Chars.indexOf c

/-- Models `window.btoa` on a binary string (list of char codes `< 256`):
groups of three bytes become four sextet characters; a trailing group of
one or two bytes is padded with `=`. -/
def btoaB : List ℕ → List Char
  | [] => []
  | [a] => [sextetChar (a / 4), sextetChar (a % 4 * 16), '=', '=']
  | [a, b] => [sextetChar (a / 4), sextetChar (a % 4 * 16 + b / 16),
               sextetChar (b % 16 * 4), '=']
  | a :: b :: c :: rest =>
      sextetChar (a / 4) :: sextetChar (a % 4 * 16 + b / 16) ::
      sextetChar (b % 16 * 4 + c / 64) :: sextetChar (c % 64) :: btoaB rest

/-- Models `window.atob`: decodes four base64 characters to three bytes, with
`=` padding cutting the final group to one or two bytes. -/
def atobB : List Char → List ℕ
  | c1 :: c2 :: c3 :: c4 :: rest =>
      let w := charSextet c1
      let x := charSextet c2
      if c3 = '=' then [w * 4 + x / 16]
      else
        let y := charSextet c3
        if c4 = '=' then [w * 4 + x / 16, x % 16 * 16 + y / 4]
        else (w * 4 + x / 16) :: (x % 16 * 16 + y / 4) ::
             (y % 4 * 64 + charSextet c4) :: atobB rest
  | _ => []

/-- Models `arrayBufferToBase64` (src/index.tsx:12): builds a binary string
whose char codes are the buffer's bytes and applies `btoa`. -/
def arrayBufferToBase64 (buffer : List ℕ) : List Char := btoaB buffer

/-- Models `base64ToArrayBuffer` (src/index.tsx:23): applies `atob` and reads
the char codes of the resulting binary string back into bytes. -/
def base64ToArrayBuffer (s : List Char) : List ℕ := atobB s

/-! ### The `AudioProcessor` worklet (src/index.tsx:198-205)

The worklet's `_internalBuffer` is a `Float32Array` of length
`capacity`; only the region below `_internalBufferIndex` is ever read,
so the state keeps just that filled region as `buf` (its length is the
write index). -/

structure WorkletState where
  sampleRate : ℕ
  targetSampleRate : ℕ
  frameSize : ℕ
  capacity : ℕ
  buf : List ℚ
  isProcessing : Bool
  deriving DecidableEq

/-- Models `this.resampleRatio = this.sampleRate / this.targetSampleRate`. -/
def WorkletState.ratio (s : WorkletState) : ℚ :=
  (s.sampleRate : ℚ) / (s.targetSampleRate : ℚ)

/-- The worklet constructor: `targetSampleRate || 16000` and
`bufferSize || 4096` (`0` is falsy in JS), internal buffer length
`max(ceil(bufferSize * sampleRate / targetSampleRate) + 128, bufferSize * 2)`,
write index `0`, `isProcessing = false`. -/
def WorkletState.init (sampleRate targetSampleRate bufferSize : ℕ) : WorkletState :=
  let tsr := if targetSampleRate = 0 then 16000 else targetSampleRate
  let bs := if bufferSize = 0 then 4096 else bufferSize
  let minInternalBufferSize := (⌈(bs : ℚ) * ((sampleRate : ℚ) / (tsr : ℚ))⌉).toNat + 128
  { sampleRate := sampleRate, targetSampleRate := tsr, frameSize := bs,
    capacity := max minInternalBufferSize (bs * 2), buf := [], isProcessing := false }

/-- The emission loop of `sendResampledBuffer`, iterating `i` upward
while `fuel = bufferSize - i` samples may still be produced:
`P = i * ratio`, `K = floor(P)`, `T = P - K`; linear interpolation when
`K + 1` is below the write index, the bare sample when only `K` is,
and `break` otherwise.  Each completed iteration appends exactly one
output sample. -/
def interpOuts (buf : List ℚ) (filled : ℕ) (ratio : ℚ) : ℕ → ℕ → List ℚ
  | 0, _ => []
  | fuel + 1, i =>
      let P : ℚ := (i : ℚ) * ratio
      let K : ℤ := ⌊P⌋
      if K + 1 < (filled : ℤ) then
        (buf.getD K.toNat 0 * (1 - (P - (K : ℚ))) + buf.getD (K.toNat + 1) 0 * (P - (K : ℚ)))
          :: interpOuts buf filled ratio fuel (i + 1)
      else if K < (filled : ℤ) then
        buf.getD K.toNat 0 :: interpOuts buf filled ratio fuel (i + 1)
      else []

/-- Models `finalOutputBuffer`: the samples produced by one run of the loop. -/
def resampleOuts (buf : List ℚ) (filled : ℕ) (ratio : ℚ) (frameSize : ℕ) : List ℚ :=
  interpOuts buf filled ratio frameSize 0

/-- The spec's per-index interpolation formula (C1), stated
independently of the loop: with `P = i * ratio`, `K = floor P`,
`T = P - K`, the output is `buffer[K]*(1-T) + buffer[K+1]*T` when `K+1`
is inside the filled region, else `buffer[K]`. -/
def specInterpolatedSample (buf : List ℚ) (filled : ℕ) (ratio : ℚ) (i : ℕ) : ℚ :=
  let P : ℚ := (i : ℚ) * ratio
  let K : ℤ := ⌊P⌋
  let T : ℚ := P - (K : ℚ)
  if K + 1 < (filled : ℤ) then
    buf.getD K.toNat 0 * (1 - T) + buf.getD (K.toNat + 1) 0 * T
  else buf.getD K.toNat 0

/-- JS `Math.max(-1, Math.min(1, x))`. -/
def jsClamp (x : ℚ) : ℚ := max (-1) (min 1 x)

/-- JS number-to-integer truncation toward zero. -/
def jsTrunc (q : ℚ) : ℤ := if 0 ≤ q then ⌊q⌋ else ⌈q⌉

/-- JS `ToInt16`, applied on storing a number into an `Int16Array`
(`pcmData[i] = sample * 32767`): truncate toward zero, reduce modulo
`2^16`, interpret as signed 16-bit. -/
def toInt16 (q : ℚ) : ℤ :=
  if 32768 ≤ jsTrunc q % 65536 then jsTrunc q % 65536 - 65536 else jsTrunc q % 65536

/-- Quantization as the specification words it: `round(sample * 32767)`
after clamping.  Modelled from the spec for comparison with the code's
truncating `Int16Array` conversion. -/
def specRoundQuantize (x : ℚ) : ℤ := round (jsClamp x * 32767)

/-- Models `consumedInputSamples` is overwritten with `K + 1` on every
completed loop iteration, so its final value is `⌊(n-1)·ratio⌋ + 1`
where `n ≥ 1` is the number of produced outputs (each completed
iteration produces exactly one output; on `n = 0` the code returns
before using it). -/
def consumedFor (ratio : ℚ) (n : ℕ) : ℕ := (⌊((n - 1 : ℕ) : ℚ) * ratio⌋ + 1).toNat

/-- Models `sendResampledBuffer`: returns the posted PCM frame (if any) and the
compacted state.  Empty buffer or re-entrancy is a no-op; an empty
output is discarded without posting; otherwise the clamped, quantized
frame is posted and the consumed samples are shifted out
(`copyWithin` + index decrement ≙ `List.drop`), or the index is
forcibly reset to `0` when nothing valid was consumed. -/
def sendResampledBuffer (s : WorkletState) : Option (List ℤ) × WorkletState :=
  if s.buf.length = 0 ∨ s.isProcessing then (none, s)
  else
    let outs := resampleOuts s.buf s.buf.length s.ratio s.frameSize
    if outs.length = 0 then (none, s)
    else
      let pcm := outs.map fun x => toInt16 (jsClamp x * 32767)
      let consumed := consumedFor s.ratio outs.length
      if 0 < consumed ∧ consumed ≤ s.buf.length then
        (some pcm, { s with buf := s.buf.drop consumed })
      else
        (some pcm, { s with buf := [] })

/-- The input-accumulation step of `process`: append the whole block if
it fits, otherwise only the prefix filling the remaining space. -/
def processAppend (s : WorkletState) (inputChannel : List ℚ) : WorkletState :=
  if s.buf.length + inputChannel.length ≤ s.capacity then
    { s with buf := s.buf ++ inputChannel }
  else
    let remainingSpace := s.capacity - s.buf.length
    if 0 < remainingSpace then
      { s with buf := s.buf ++ inputChannel.take remainingSpace }
    else s

/-- One `process` call: accumulate the input block, then emit when the
fill trigger (`bufferSize * ratio` samples buffered) or the age trigger
(`shouldSendByTime`, abstracting `currentTime - lastSendTime > 0.5` with
a non-empty buffer) fires and no emission is in flight. -/
def processStep (s : WorkletState) (inputChannel : List ℚ) (shouldSendByTime : Bool) :
    Option (List ℤ) × WorkletState :=
  let s1 := processAppend s inputChannel
  let minInputSamples := (⌊(s1.frameSize : ℚ) * s1.ratio⌋).toNat
  let shouldSendByFill := minInputSamples ≤ s1.buf.length
  if (shouldSendByFill ∨ (shouldSendByTime ∧ 0 < s1.buf.length)) ∧ s1.isProcessing = false then
    sendResampledBuffer s1
  else (none, s1)

/-- Concrete worklet state used as witness input: native 48 kHz, target
16 kHz (ratio 3), frame size 8 (capacity 152 as the constructor
computes: `max (⌈8·3⌉ + 128) (8·2)`), four buffered samples. -/
def exampleWorklet : WorkletState :=
  { sampleRate := 48000, targetSampleRate := 16000, frameSize := 8,
    capacity := 152, buf := [0, 3/10, 6/10, 9/10], isProcessing := false }

/-- Concrete worklet state whose single buffered sample `1/2` quantizes
differently under truncation and under rounding. -/
def quantCexWorklet : WorkletState :=
  { sampleRate := 48000, targetSampleRate := 16000, frameSize := 8,
    capacity := 152, buf := [1/2], isProcessing := false }

/-- Concrete worklet state with an empty accumulator, for the
`processStep` witness. -/
def emptyWorklet : WorkletState :=
  { sampleRate := 48000, targetSampleRate := 16000, frameSize := 8,
    capacity := 152, buf := [], isProcessing := false }

/-- Concrete worklet state close to capacity, for the overflow witness:
150 of the 152 slots are occupied. -/
def overflowWorklet : WorkletState :=
  { sampleRate := 48000, targetSampleRate := 16000, frameSize := 8,
    capacity := 152, buf := List.replicate 150 0, isProcessing := false }

/-! ### Playback queue (`enqueueAudio` / `playNextInQueue`, src/index.tsx:295-307)

Inbound frames (`ArrayBuffer`s) are byte lists.  `queue` is
`audioQueue`, `isPlaying` is `isPlayingAudio`.  `nowPlaying` (the Web
Audio sources started and not yet ended) and `played` (the log of
playback starts, in order) are ghost fields recording observable
behaviour; the code keeps no such lists.  The `ctxOk` parameter
abstracts whether the `AudioContext` is running (or could be
re-initialized, line 304); when it is not, the shifted frame is
re-inserted at the head and playback is deferred.  The decode/start
`try` block (line 305) has one deterministic throw: `new Int16Array`
raises a RangeError when the buffer's byteLength is not a multiple
of 2; the `catch` (line 306) then drops the already-shifted frame and
recurses.  For a running context the remaining calls (`createBuffer` on
a length ≥ 1, `copyToChannel`, `connect`, `start` on a fresh source) do
not throw. -/

structure PBState where
  queue : List (List ℕ)
  isPlaying : Bool
  nowPlaying : List (List ℕ)
  played : List (List ℕ)
  deriving DecidableEq

/-- A frame can actually play iff its byte length is at least 2 (shorter
chunks are skipped at line 303) and even (odd byteLength makes
`new Int16Array` throw at line 305, so the frame is dropped by the
`catch`). -/
def isPlayableFrame (f : List ℕ) : Bool := 2 ≤ f.length ∧ f.length % 2 = 0

/-- The recursion of `playNextInQueue` over the queue: empty queue stops
playback; a frame shorter than 2 bytes is skipped and the next is tried;
with no working audio context the shifted frame is unshifted back and
playback is deferred; a frame of odd byteLength makes the decode throw,
so it is dropped and the next is tried; otherwise the head frame starts
playing.  Returns the remaining queue, the `isPlayingAudio` flag, and
the started frame. -/
def playNextQ (ctxOk : Bool) : List (List ℕ) → List (List ℕ) × Bool × Option (List ℕ)
  | [] => ([], false, none)
  | f :: rest =>
      if f.length < 2 then playNextQ ctxOk rest
      else if ¬ctxOk then (f :: rest, false, none)
      else if f.length % 2 ≠ 0 then playNextQ ctxOk rest
      else (rest, true, some f)

def playNext (ctxOk : Bool) (s : PBState) : PBState :=
  { queue := (playNextQ ctxOk s.queue).1,
    isPlaying := (playNextQ ctxOk s.queue).2.1,
    nowPlaying := s.nowPlaying ++ (playNextQ ctxOk s.queue).2.2.toList,
    played := s.played ++ (playNextQ ctxOk s.queue).2.2.toList }

/-- Models `enqueueAudio`: push the frame, then start the playback loop only
when the `isPlayingAudio` flag is clear. -/
def enqueueAudio (ctxOk : Bool) (f : List ℕ) (s : PBState) : PBState :=
  if s.isPlaying then { s with queue := s.queue ++ [f] }
  else playNext ctxOk { s with queue := s.queue ++ [f] }

/-- The `source.onended` callback: the finished source stops occupying
the output and `playNextInQueue` runs again.  It can only fire while a
source is playing. -/
def playbackComplete (ctxOk : Bool) (s : PBState) : PBState :=
  match s.nowPlaying with
  | [] => s
  | _ :: rest => playNext ctxOk { s with nowPlaying := rest }

inductive PBEvent
  | enq (f : List ℕ) (ctxOk : Bool)
  | done (ctxOk : Bool)
  deriving DecidableEq

def pbStep (s : PBState) : PBEvent → PBState
  | PBEvent.enq f ctxOk => enqueueAudio ctxOk f s
  | PBEvent.done ctxOk => playbackComplete ctxOk s

def pbInit : PBState := { queue := [], isPlaying := false, nowPlaying := [], played := [] }

def pbRun (evs : List PBEvent) : PBState := evs.foldl pbStep pbInit

/-- The playable frames an event contributes to the stream. -/
def eventPlayableFrames : PBEvent → List (List ℕ)
  | PBEvent.enq f _ => if isPlayableFrame f then [f] else []
  | PBEvent.done _ => []

/-- All playable frames enqueued by an event sequence, in order. -/
def playableFrames : List PBEvent → List (List ℕ)
  | [] => []
  | e :: rest => eventPlayableFrames e ++ playableFrames rest

/-- A playback state with a frame in flight, junk (a one-byte chunk)
followed by a playable frame queued behind it. -/
def busyPB : PBState :=
  { queue := [[7], [0, 1]], isPlaying := true, nowPlaying := [[0, 0]], played := [[0, 0]] }

/-- The playback-queue invariant: the started frames followed by the
still-queued playable frames are exactly the enqueued playable frames in
order; at most one source plays at a time; the flag matches; only
playable frames ever start. -/
def PBInv (L : List (List ℕ)) (s : PBState) : Prop :=
  s.played ++ s.queue.filter isPlayableFrame = L
  ∧ s.nowPlaying.length ≤ 1
  ∧ (s.isPlaying = true ↔ s.nowPlaying ≠ [])
  ∧ (∀ f ∈ s.played, isPlayableFrame f = true)

/-! ### Session, capture and periodic-image state machine
(`GeminiLiveVoiceApp`, src/index.tsx:135-402)

One step of the model is one JS event-loop task.  Since `startRecording`
suspends at `await getUserMedia`, its continuation (worklet attachment
and `startPeriodicImageSending`) is a separate task, triggered by the
`micResult` event; `pendingMic` counts suspended continuations.  The
`connect` await inside `connectToGemini` is folded into its caller's
task with its outcome passed as `connectOk`.  `sent` is a ghost log of
the chunks handed to `session.sendRealtimeInput`, each recording the
flags at transmission time.  The playback queue is modelled separately
above; DOM/status updates carry no state and are omitted. -/

inductive SendKind
  | audio
  | image
  deriving DecidableEq

structure SendRecord where
  kind : SendKind
  sessionOpen : Bool
  isSetupComplete : Bool
  isRecording : Bool
  imageLoaded : Bool
  deriving DecidableEq

structure AppState where
  sessionOpen : Bool
  isRecording : Bool
  isSetupComplete : Bool
  imageLoaded : Bool
  intervalActive : Bool
  workletAttached : Bool
  pendingMic : ℕ
  sent : List SendRecord
  deriving DecidableEq

/-- The ghost log entry for a transmission: the kind of chunk and the
flags as they stood at send time. -/
def sendSnapshot (k : SendKind) (s : AppState) : SendRecord :=
  { kind := k, sessionOpen := s.sessionOpen, isSetupComplete := s.isSetupComplete,
    isRecording := s.isRecording, imageLoaded := s.imageLoaded }

/-- Models `stopPeriodicImageSending` (src/index.tsx:164): clear the interval. -/
def stopPeriodicImageSending (s : AppState) : AppState := { s with intervalActive := false }

/-- Models `sendPeriodicImageData` (src/index.tsx:172): transmit the image only
when an image is loaded, a session exists, recording is active and setup
is complete; otherwise do nothing. -/
def sendPeriodicImageData (s : AppState) : AppState :=
  if s.imageLoaded ∧ s.sessionOpen ∧ s.isRecording ∧ s.isSetupComplete then
    { s with sent := s.sent ++ [sendSnapshot SendKind.image s] }
  else s

/-- Models `startPeriodicImageSending` (src/index.tsx:144): always clear any
existing interval; bail out unless a session exists, setup is complete
and recording is active (the loaded image is NOT checked); otherwise
start the interval and send one image eagerly if one is loaded. -/
def startPeriodicImageSending (s : AppState) : AppState :=
  if ¬(s.sessionOpen ∧ s.isSetupComplete ∧ s.isRecording) then
    { s with intervalActive := false }
  else if s.imageLoaded then
    sendPeriodicImageData { s with intervalActive := true }
  else
    { s with intervalActive := true }

/-- Models `removeImage` (src/index.tsx:135): clears the image and its preview;
it does not touch the send interval. -/
def removeImage (s : AppState) : AppState := { s with imageLoaded := false }

/-- A successful `handleImageUpload` (src/index.tsx:104). -/
def loadImage (s : AppState) : AppState := { s with imageLoaded := true }

/-- Models `cleanupAudioNodes` (src/index.tsx:381): detaches the worklet's
`port.onmessage` and tears the nodes down. -/
def cleanupAudioNodes (s : AppState) : AppState := { s with workletAttached := false }

/-- Models `cleanupAfterErrorOrClose` (src/index.tsx:280): stop recording and
the interval, mark setup incomplete, detach audio nodes, drop the
session (the playback-queue clearing lives in the separate model). -/
def cleanupAfterErrorOrClose (s : AppState) : AppState :=
  { s with isRecording := false, isSetupComplete := false, intervalActive := false,
           workletAttached := false, sessionOpen := false }

/-- Models `connectToGemini` (src/index.tsx:235): resets `isSetupComplete`,
then either obtains a session or runs the error cleanup.  Only called
when no session is held. -/
def connectToGemini (s : AppState) (connectOk : Bool) : AppState :=
  if connectOk then { s with isSetupComplete := false, sessionOpen := true }
  else cleanupAfterErrorOrClose { s with isSetupComplete := false }

/-- Models `startRecording` (src/index.tsx:326) up to its first suspension:
with a ready session (and recording still requested after the async
gap) it suspends on `getUserMedia` (`pendingMic` incremented); with a
pending setup it returns and waits for the setup signal; with no session
it connects and either waits for setup or resets the recording intent on
failure. -/
def startRecording (s : AppState) (connectOk : Bool) : AppState :=
  if s.sessionOpen ∧ s.isSetupComplete then
    if s.isRecording then { s with pendingMic := s.pendingMic + 1 }
    else s
  else if s.sessionOpen then s
  else
    if (connectToGemini s connectOk).sessionOpen then connectToGemini s connectOk
    else { connectToGemini s connectOk with isRecording := false }

/-- Models `stopRecording` (src/index.tsx:388): idempotent early exit when
neither recording nor connected; otherwise clear the recording flag,
stop the interval and tear down the audio nodes (the session close event
arrives later as `closeOrError`). -/
def stopRecording (s : AppState) : AppState :=
  if ¬s.isRecording ∧ ¬s.sessionOpen then
    cleanupAudioNodes { s with isRecording := false }
  else
    cleanupAudioNodes (stopPeriodicImageSending { s with isRecording := false })

/-- Models `toggleRecording` (src/index.tsx:313). -/
def toggleRecording (s : AppState) (connectOk : Bool) : AppState :=
  if s.isRecording then stopRecording s
  else startRecording { s with isRecording := true } connectOk

/-- The continuation of `startRecording` after `await getUserMedia`
(src/index.tsx:356-377): on success the worklet is created and attached
and `startPeriodicImageSending` runs — with no re-check of the flags;
on failure the recording flag is reset and the nodes cleaned up. -/
def micResolved (s : AppState) (ok : Bool) : AppState :=
  if ok then startPeriodicImageSending { s with workletAttached := true }
  else cleanupAudioNodes { s with isRecording := false }

/-- The worklet `port.onmessage` handler receiving a PCM frame
(src/index.tsx:359-367): the frame is sent iff a session is held and
recording is active (`isSetupComplete` is not consulted); otherwise it
is dropped with no state change. -/
def workletFrame (s : AppState) : AppState :=
  if s.sessionOpen ∧ s.isRecording then
    { s with sent := s.sent ++ [sendSnapshot SendKind.audio s] }
  else s

/-- The `setupComplete` server message (src/index.tsx:251-260). -/
def setupCompleteMsg (s : AppState) : AppState :=
  if s.sessionOpen then
    if s.isRecording then startRecording { s with isSetupComplete := true } true
    else if s.imageLoaded then startPeriodicImageSending { s with isSetupComplete := true }
    else { s with isSetupComplete := true }
  else s

inductive AppEvent
  | toggle (connectOk : Bool)
  | setupComplete
  | micResult (ok : Bool)
  | workletData
  | imageTick
  | closeOrError
  | imageUpload
  | imageRemove
  deriving DecidableEq

/-- One event-loop task.  Events are only effective when their trigger
exists: a worklet message needs an attached handler, a tick needs a
running interval, a mic resolution needs a pending `getUserMedia`, a
close/error needs a session. -/
def appStep (s : AppState) : AppEvent → AppState
  | AppEvent.toggle connectOk => toggleRecording s connectOk
  | AppEvent.setupComplete => setupCompleteMsg s
  | AppEvent.micResult ok =>
      if 0 < s.pendingMic then micResolved { s with pendingMic := s.pendingMic - 1 } ok else s
  | AppEvent.workletData => if s.workletAttached then workletFrame s else s
  | AppEvent.imageTick => if s.intervalActive then sendPeriodicImageData s else s
  | AppEvent.closeOrError => if s.sessionOpen then cleanupAfterErrorOrClose s else s
  | AppEvent.imageUpload => loadImage s
  | AppEvent.imageRemove => removeImage s

def appInit : AppState :=
  { sessionOpen := false, isRecording := false, isSetupComplete := false,
    imageLoaded := false, intervalActive := false, workletAttached := false,
    pendingMic := 0, sent := [] }

def appRun (evs : List AppEvent) : AppState := evs.foldl appStep appInit

/-- Every logged transmission satisfied its guard at send time: audio
frames had a session and active recording; images additionally had setup
complete and an image loaded. -/
def SentOK (s : AppState) : Prop :=
  ∀ r ∈ s.sent,
    (r.kind = SendKind.audio → r.sessionOpen = true ∧ r.isRecording = true)
    ∧ (r.kind = SendKind.image → r.sessionOpen = true ∧ r.isSetupComplete = true
        ∧ r.isRecording = true ∧ r.imageLoaded = true)

/-- The audio transmission record produced by the C6 counterexample
trace: sent with a session and recording active but setup incomplete. -/
def staleAudioRecord : SendRecord :=
  { kind := SendKind.audio, sessionOpen := true, isSetupComplete := false,
    isRecording := true, imageLoaded := false }

/-- The C6 counterexample trace: connect, receive setup, lose the
connection while `getUserMedia` is pending, let the continuation attach
the worklet anyway, reconnect (setup pending), then receive a worklet
frame. -/
def staleWorkletTrace : List AppEvent :=
  [AppEvent.toggle true, AppEvent.setupComplete, AppEvent.closeOrError,
   AppEvent.micResult true, AppEvent.toggle true, AppEvent.workletData]

/-- A connected, recording, setup-complete state with the interval
running and no image loaded, for the C9 witness. -/
def noImageAppState : AppState :=
  { sessionOpen := true, isRecording := true, isSetupComplete := true,
    imageLoaded := false, intervalActive := true, workletAttached := true,
    pendingMic := 0, sent := [] }

/-! ### The websocket `onclose` status (src/index.tsx:273) -/

/-- The `onclose` handler's surfaced status: the message text and
whether it is surfaced as an error.  An unclean close while recording is
an error; a code-1000 close while not recording is "Call ended."; any
other non-1000 code is a plain disconnect; a clean code-1000 close while
recording falls through to the plain "Disconnected.". -/
def oncloseStatus (code : ℕ) (wasClean : Bool) (isRecording : Bool) : String × Bool :=
  if ¬wasClean ∧ isRecording then (s!"Disconnected unexpectedly (Code: {code})", true)
  else if code = 1000 ∧ ¬isRecording then ("Call ended.", false)
  else if code ≠ 1000 then (s!"Disconnected (Code: {code})", false)
  else ("Disconnected.", false)

theorem charSextet_sextetChar_fin : ∀ n : Fin 64, charSextet (sextetChar n.val) = n.val := by
  decide

theorem charSextet_sextetChar {n : ℕ} (h : n < 64) : charSextet (sextetChar n) = n :=
  charSextet_sextetChar_fin ⟨n, h⟩

theorem sextetChar_ne_eq_fin : ∀ n : Fin 64, sextetChar n.val ≠ '=' := by
  decide

theorem sextetChar_ne_eq {n : ℕ} (h : n < 64) : sextetChar n ≠ '=' :=
  sextetChar_ne_eq_fin ⟨n, h⟩

/-- C10: decoding the encoding of any byte buffer restores it exactly. -/
theorem c10_base64_roundtrip :
    ∀ l : List ℕ, (∀ b ∈ l, b < 256) →
      base64ToArrayBuffer (arrayBufferToBase64 l) = l := by
  intro l hl
  unfold base64ToArrayBuffer arrayBufferToBase64
  induction l using btoaB.induct with
  | case1 => rfl
  | case2 a =>
      have ha : a < 256 := hl a (by simp)
      have h1 : a / 4 < 64 := by omega
      have h2 : a % 4 * 16 < 64 := by omega
      simp [btoaB, atobB, charSextet_sextetChar h1, charSextet_sextetChar h2]
      omega
  | case3 a b =>
      have ha : a < 256 := hl a (by simp)
      have hb : b < 256 := hl b (by simp)
      have h1 : a / 4 < 64 := by omega
      have h2 : a % 4 * 16 + b / 16 < 64 := by omega
      have h3 : b % 16 * 4 < 64 := by omega
      simp [btoaB, atobB, charSextet_sextetChar h1, charSextet_sextetChar h2,
        charSextet_sextetChar h3, if_neg (sextetChar_ne_eq h3)]
      omega
  | case4 a b c rest ih =>
      have ha : a < 256 := hl a (by simp)
      have hb : b < 256 := hl b (by simp)
      have hc : c < 256 := hl c (by simp)
      have hrest : ∀ x ∈ rest, x < 256 := by
        intro x hx
        exact hl x (by simp [hx])
      have h1 : a / 4 < 64 := by omega
      have h2 : a % 4 * 16 + b / 16 < 64 := by omega
      have h3 : b % 16 * 4 + c / 64 < 64 := by omega
      have h4 : c % 64 < 64 := by omega
      simp [btoaB, atobB, charSextet_sextetChar h1, charSextet_sextetChar h2,
        charSextet_sextetChar h3, charSextet_sextetChar h4,
        if_neg (sextetChar_ne_eq h3), if_neg (sextetChar_ne_eq h4), ih hrest]
      omega

/-- Concrete witness for the round-trip theorem. -/
theorem c10_base64_roundtrip_witness :
    base64ToArrayBuffer (arrayBufferToBase64 [0, 255, 7, 128]) = [0, 255, 7, 128] :=
  c10_base64_roundtrip [0, 255, 7, 128] (by decide)

theorem interpOuts_cons (buf : List ℚ) (filled : ℕ) (ratio : ℚ) (fuel i : ℕ)
    (h : ⌊(i : ℚ) * ratio⌋ < (filled : ℤ)) :
    interpOuts buf filled ratio (fuel + 1) i =
      specInterpolatedSample buf filled ratio i :: interpOuts buf filled ratio fuel (i + 1) := by
  by_cases h1 : ⌊(i : ℚ) * ratio⌋ + 1 < (filled : ℤ)
  · simp [interpOuts, specInterpolatedSample, h1]
  · simp [interpOuts, specInterpolatedSample, h1, h]

theorem interpOuts_nil (buf : List ℚ) (filled : ℕ) (ratio : ℚ) (fuel i : ℕ)
    (h : (filled : ℤ) ≤ ⌊(i : ℚ) * ratio⌋) :
    interpOuts buf filled ratio (fuel + 1) i = [] := by
  have h1 : ¬(⌊(i : ℚ) * ratio⌋ + 1 < (filled : ℤ)) := by omega
  have h2 : ¬(⌊(i : ℚ) * ratio⌋ < (filled : ℤ)) := by omega
  simp [interpOuts, h1, h2]

theorem interpOuts_length_le (buf : List ℚ) (filled : ℕ) (ratio : ℚ) :
    ∀ fuel i, (interpOuts buf filled ratio fuel i).length ≤ fuel := by
  intro fuel
  induction fuel with
  | zero => intro i; simp [interpOuts]
  | succ fuel ih =>
      intro i
      by_cases h : ⌊(i : ℚ) * ratio⌋ < (filled : ℤ)
      · rw [interpOuts_cons buf filled ratio fuel i h]
        simpa using Nat.succ_le_succ (ih (i + 1))
      · rw [interpOuts_nil buf filled ratio fuel i (by omega)]
        simp

theorem interpOuts_get (buf : List ℚ) (filled : ℕ) (ratio : ℚ) :
    ∀ fuel i j, j < (interpOuts buf filled ratio fuel i).length →
      (interpOuts buf filled ratio fuel i).getD j 0 =
        specInterpolatedSample buf filled ratio (i + j)
      ∧ ⌊((i + j : ℕ) : ℚ) * ratio⌋ < (filled : ℤ) := by
  intro fuel
  induction fuel with
  | zero => intro i j hj; simp [interpOuts] at hj
  | succ fuel ih =>
      intro i j hj
      by_cases h : ⌊(i : ℚ) * ratio⌋ < (filled : ℤ)
      · rw [interpOuts_cons buf filled ratio fuel i h] at hj ⊢
        cases j with
        | zero => simpa using h
        | succ j =>
            have hj1 : j < (interpOuts buf filled ratio fuel (i + 1)).length := by
              simpa using hj
            have := ih (i + 1) j hj1
            have harith : i + 1 + j = i + (j + 1) := by omega
            rw [harith] at this
            simpa using this
      · rw [interpOuts_nil buf filled ratio fuel i (by omega)] at hj
        simp at hj

theorem interpOuts_stop (buf : List ℚ) (filled : ℕ) (ratio : ℚ) :
    ∀ fuel i, (interpOuts buf filled ratio fuel i).length < fuel →
      (filled : ℤ) ≤ ⌊((i + (interpOuts buf filled ratio fuel i).length : ℕ) : ℚ) * ratio⌋ := by
  intro fuel
  induction fuel with
  | zero => intro i h; omega
  | succ fuel ih =>
      intro i h
      by_cases hcond : ⌊(i : ℚ) * ratio⌋ < (filled : ℤ)
      · rw [interpOuts_cons buf filled ratio fuel i hcond] at h ⊢
        have h' : (interpOuts buf filled ratio fuel (i + 1)).length < fuel := by
          simpa using h
        have := ih (i + 1) h'
        have harith : i + 1 + (interpOuts buf filled ratio fuel (i + 1)).length =
            i + (specInterpolatedSample buf filled ratio i ::
              interpOuts buf filled ratio fuel (i + 1)).length := by
          simp
          omega
        rwa [harith] at this
      · rw [interpOuts_nil buf filled ratio fuel i (by omega)]
        simpa using (by omega : (filled : ℤ) ≤ ⌊(i : ℚ) * ratio⌋)

theorem interpOuts_ne_nil (buf : List ℚ) (filled : ℕ) (ratio : ℚ) (fuel : ℕ)
    (hfill : 0 < filled) :
    interpOuts buf filled ratio (fuel + 1) 0 ≠ [] := by
  have h0 : ⌊((0 : ℕ) : ℚ) * ratio⌋ = 0 := by norm_num
  have h : ⌊((0 : ℕ) : ℚ) * ratio⌋ < (filled : ℤ) := by omega
  rw [interpOuts_cons buf filled ratio fuel 0 h]
  simp

theorem jsClamp_bounds (x : ℚ) : -1 ≤ jsClamp x ∧ jsClamp x ≤ 1 :=
  ⟨le_max_left _ _, max_le (by norm_num) (min_le_left _ _)⟩

theorem jsTrunc_bounds (q : ℚ) (h1 : -32767 ≤ q) (h2 : q ≤ 32767) :
    -32767 ≤ jsTrunc q ∧ jsTrunc q ≤ 32767 := by
  unfold jsTrunc
  split_ifs with h0
  · have hl : (0 : ℤ) ≤ ⌊q⌋ := Int.le_floor.mpr (by exact_mod_cast h0)
    have hu := Int.floor_mono h2
    have h37 : ⌊(32767 : ℚ)⌋ = (32767 : ℤ) := by norm_num
    omega
  · have hu : ⌈q⌉ ≤ 0 := Int.ceil_le.mpr (by push_cast; linarith)
    have hl := Int.ceil_mono h1
    have h37 : ⌈(-32767 : ℚ)⌉ = (-32767 : ℤ) := by
      rw [show ((-32767 : ℚ)) = ((-32767 : ℤ) : ℚ) by norm_num, Int.ceil_intCast]
    omega

theorem toInt16_clamp_range (x : ℚ) :
    -32767 ≤ toInt16 (jsClamp x * 32767) ∧ toInt16 (jsClamp x * 32767) ≤ 32767 := by
  have hq1 : (-32767 : ℚ) ≤ jsClamp x * 32767 := by nlinarith [(jsClamp_bounds x).1]
  have hq2 : jsClamp x * 32767 ≤ 32767 := by nlinarith [(jsClamp_bounds x).2]
  obtain ⟨ht1, ht2⟩ := jsTrunc_bounds _ hq1 hq2
  unfold toInt16
  split_ifs <;> omega

theorem sendResampledBuffer_some (s : WorkletState) (F : List ℤ)
    (h : (sendResampledBuffer s).1 = some F) :
    F = (resampleOuts s.buf s.buf.length s.ratio s.frameSize).map
        (fun x => toInt16 (jsClamp x * 32767))
    ∧ (resampleOuts s.buf s.buf.length s.ratio s.frameSize).length ≠ 0 := by
  simp only [sendResampledBuffer] at h
  split_ifs at h with h1 h2 h3
  · simp at h
    exact ⟨h.symm, h2⟩
  · simp at h
    exact ⟨h.symm, h2⟩

/-- Evaluation of the emission at `exampleWorklet`: a two-sample partial
frame `[0, 29490]` (the loop breaks at `i = 2`, where `K = 6` is outside
the four filled slots). -/
theorem exampleWorklet_send_eval : (sendResampledBuffer exampleWorklet).1 = some [0, 29490] := by
  norm_num [sendResampledBuffer, exampleWorklet, WorkletState.ratio, resampleOuts,
    interpOuts, consumedFor, toInt16, jsTrunc, jsClamp, Int.toNat_ofNat, Int.toNat]

/-- Evaluation of the emission at `quantCexWorklet`: the single sample
`1/2` is quantized to `16383` by truncation. -/
theorem quantCexWorklet_send_eval : (sendResampledBuffer quantCexWorklet).1 = some [16383] := by
  norm_num [sendResampledBuffer, quantCexWorklet, WorkletState.ratio, resampleOuts,
    interpOuts, consumedFor, toInt16, jsTrunc, jsClamp, Int.toNat_ofNat, Int.toNat]

/-- Evaluation of a full `process` step at `emptyWorklet` with one input
sample and the age trigger fired: a one-sample frame is posted. -/
theorem emptyWorklet_processStep_eval :
    (processStep emptyWorklet [1 / 2] true).1 = some [16383] := by
  norm_num [processStep, processAppend, sendResampledBuffer, emptyWorklet,
    WorkletState.ratio, resampleOuts, interpOuts, consumedFor, toInt16, jsTrunc,
    jsClamp, Int.toNat_ofNat, Int.toNat]

/-- C1: within every emitted frame, output sample `i` is computed by the
spec's interpolation formula (`P = i·ratio`, `K = ⌊P⌋`, `T = P - K`;
lerp of `buffer[K]`, `buffer[K+1]` when `K+1` is in the filled region,
else `buffer[K]` when only `K` is), and if fewer than `frameSize`
samples were produced the loop stopped exactly at the first index whose
`K` left the filled region. -/
theorem c1_interpolation (s : WorkletState) (F : List ℤ)
    (h : (sendResampledBuffer s).1 = some F) :
    F.length = (resampleOuts s.buf s.buf.length s.ratio s.frameSize).length
    ∧ (∀ i < (resampleOuts s.buf s.buf.length s.ratio s.frameSize).length,
        (resampleOuts s.buf s.buf.length s.ratio s.frameSize).getD i 0 =
          specInterpolatedSample s.buf s.buf.length s.ratio i
        ∧ ⌊(i : ℚ) * s.ratio⌋ < (s.buf.length : ℤ))
    ∧ ((resampleOuts s.buf s.buf.length s.ratio s.frameSize).length < s.frameSize →
        (s.buf.length : ℤ) ≤
          ⌊((resampleOuts s.buf s.buf.length s.ratio s.frameSize).length : ℚ) * s.ratio⌋) := by
  obtain ⟨hF, -⟩ := sendResampledBuffer_some s F h
  refine ⟨by rw [hF]; simp, ?_, ?_⟩
  · intro i hi
    have := interpOuts_get s.buf s.buf.length s.ratio s.frameSize 0 i
      (by simpa [resampleOuts] using hi)
    simpa [resampleOuts] using this
  · intro hlt
    have := interpOuts_stop s.buf s.buf.length s.ratio s.frameSize 0
      (by simpa [resampleOuts] using hlt)
    simpa [resampleOuts] using this

/-- Witness for C1 at a concrete state (ratio 3, four buffered samples,
emitting a two-sample partial frame). -/
theorem c1_interpolation_witness :
    [(0 : ℤ), 29490].length =
      (resampleOuts exampleWorklet.buf exampleWorklet.buf.length
        exampleWorklet.ratio exampleWorklet.frameSize).length
    ∧ (∀ i < (resampleOuts exampleWorklet.buf exampleWorklet.buf.length
          exampleWorklet.ratio exampleWorklet.frameSize).length,
        (resampleOuts exampleWorklet.buf exampleWorklet.buf.length
          exampleWorklet.ratio exampleWorklet.frameSize).getD i 0 =
          specInterpolatedSample exampleWorklet.buf exampleWorklet.buf.length
            exampleWorklet.ratio i
        ∧ ⌊(i : ℚ) * exampleWorklet.ratio⌋ < (exampleWorklet.buf.length : ℤ))
    ∧ ((resampleOuts exampleWorklet.buf exampleWorklet.buf.length
          exampleWorklet.ratio exampleWorklet.frameSize).length < exampleWorklet.frameSize →
        (exampleWorklet.buf.length : ℤ) ≤
          ⌊((resampleOuts exampleWorklet.buf exampleWorklet.buf.length
            exampleWorklet.ratio exampleWorklet.frameSize).length : ℚ) * exampleWorklet.ratio⌋) :=
  c1_interpolation exampleWorklet [0, 29490] exampleWorklet_send_eval

/-- Counterexample to C2 as stated: the sample `1/2` interpolates to
`1/2`, and `1/2 · 32767 = 16383.5` is stored as `16383` (JS `Int16Array`
truncation toward zero), not `round(16383.5) = 16384`. -/
theorem c2_round_cex :
    (sendResampledBuffer quantCexWorklet).1 = some [16383]
    ∧ specRoundQuantize (1 / 2) = 16384
    ∧ (sendResampledBuffer quantCexWorklet).1 ≠
        some ((resampleOuts quantCexWorklet.buf quantCexWorklet.buf.length
          quantCexWorklet.ratio quantCexWorklet.frameSize).map specRoundQuantize) := by
  refine ⟨quantCexWorklet_send_eval, ?_, ?_⟩
  · norm_num [specRoundQuantize, jsClamp, round_eq]
  · rw [quantCexWorklet_send_eval]
    norm_num [quantCexWorklet, WorkletState.ratio, resampleOuts, interpOuts,
      specRoundQuantize, jsClamp, round_eq, Int.toNat_ofNat, Int.toNat]

/-- C2 amended: every sample of an emitted frame is the clamped
interpolated float quantized by the truncating `Int16Array` conversion
(`toInt16 (clamp · * 32767)`), hence lies in `[-32767, 32767]`. -/
theorem c2_quantization (s : WorkletState) (F : List ℤ)
    (h : (sendResampledBuffer s).1 = some F) :
    F = (resampleOuts s.buf s.buf.length s.ratio s.frameSize).map
        (fun x => toInt16 (jsClamp x * 32767))
    ∧ ∀ v ∈ F, -32767 ≤ v ∧ v ≤ 32767 := by
  obtain ⟨hF, -⟩ := sendResampledBuffer_some s F h
  refine ⟨hF, ?_⟩
  intro v hv
  rw [hF] at hv
  obtain ⟨x, -, hx⟩ := List.mem_map.mp hv
  rw [← hx]
  exact toInt16_clamp_range x

/-- Witness for C2 at the same concrete state as C1. -/
theorem c2_quantization_witness :
    [(0 : ℤ), 29490] =
      (resampleOuts exampleWorklet.buf exampleWorklet.buf.length
        exampleWorklet.ratio exampleWorklet.frameSize).map
        (fun x => toInt16 (jsClamp x * 32767))
    ∧ ∀ v ∈ [(0 : ℤ), 29490], -32767 ≤ v ∧ v ≤ 32767 :=
  c2_quantization exampleWorklet [0, 29490] exampleWorklet_send_eval

/-- C3: every frame actually posted by a `process` step has at least 1
and at most `frameSize` samples (an empty output is discarded without
posting). -/
theorem c3_emitted_frame_bounds (s : WorkletState) (inputChannel : List ℚ)
    (shouldSendByTime : Bool) (F : List ℤ)
    (h : (processStep s inputChannel shouldSendByTime).1 = some F) :
    1 ≤ F.length ∧ F.length ≤ s.frameSize := by
  have hfs : (processAppend s inputChannel).frameSize = s.frameSize := by
    simp only [processAppend]
    split_ifs <;> rfl
  simp only [processStep] at h
  split_ifs at h with hc
  · obtain ⟨hF, hne⟩ := sendResampledBuffer_some _ F h
    constructor
    · rw [hF]
      simp only [List.length_map]
      omega
    · rw [hF]
      simp only [List.length_map]
      calc (resampleOuts (processAppend s inputChannel).buf
              (processAppend s inputChannel).buf.length
              (processAppend s inputChannel).ratio
              (processAppend s inputChannel).frameSize).length
          ≤ (processAppend s inputChannel).frameSize :=
            interpOuts_length_le _ _ _ _ _
        _ = s.frameSize := hfs

/-- Witness for C3: pushing one sample into an empty accumulator and
firing the age trigger emits a one-sample frame. -/
theorem c3_emitted_frame_bounds_witness :
    1 ≤ [(16383 : ℤ)].length ∧ [(16383 : ℤ)].length ≤ emptyWorklet.frameSize :=
  c3_emitted_frame_bounds emptyWorklet [1 / 2] true [16383] emptyWorklet_processStep_eval

/-- C4: when an input block exceeds the remaining capacity only the
fitting prefix is stored (the excess is dropped), and the write index
never exceeds the accumulator length. -/
theorem c4_overflow_drops_excess (s : WorkletState) (inputChannel : List ℚ)
    (h : s.buf.length ≤ s.capacity) :
    (processAppend s inputChannel).buf =
      s.buf ++ inputChannel.take (s.capacity - s.buf.length)
    ∧ (processAppend s inputChannel).buf.length ≤ s.capacity := by
  simp only [processAppend]
  split_ifs with h1 h2
  · constructor
    · rw [List.take_of_length_le (by omega)]
    · simp only [List.length_append]
      omega
  · constructor
    · rfl
    · simp only [List.length_append, List.length_take]
      omega
  · constructor
    · have h0 : s.capacity - s.buf.length = 0 := by omega
      simp [h0]
    · simpa using h

/-- Witness for C4: a three-sample block meets two free slots; two
samples are stored, one is dropped. -/
theorem c4_overflow_drops_excess_witness :
    (processAppend overflowWorklet [1, 2, 3]).buf =
      overflowWorklet.buf ++
        [(1 : ℚ), 2, 3].take (overflowWorklet.capacity - overflowWorklet.buf.length)
    ∧ (processAppend overflowWorklet [1, 2, 3]).buf.length ≤ overflowWorklet.capacity :=
  c4_overflow_drops_excess overflowWorklet [1, 2, 3] (by simp [overflowWorklet])

theorem playNextQ_spec (ctxOk : Bool) : ∀ q : List (List ℕ),
    (playNextQ ctxOk q).2.2.toList ++ (playNextQ ctxOk q).1.filter isPlayableFrame =
      q.filter isPlayableFrame
    ∧ ((playNextQ ctxOk q).2.1 = true ↔ (playNextQ ctxOk q).2.2 ≠ none)
    ∧ (∀ f, (playNextQ ctxOk q).2.2 = some f → isPlayableFrame f = true) := by
  intro q
  induction q with
  | nil => simp [playNextQ]
  | cons f rest ih =>
      by_cases hf : f.length < 2
      · have hp : isPlayableFrame f = false := by
          simp [isPlayableFrame]
          omega
        simpa [playNextQ, hf, List.filter_cons, hp] using ih
      · cases ctxOk with
        | false =>
            refine ⟨?_, by simp [playNextQ, hf], by simp [playNextQ, hf]⟩
            simp [playNextQ, hf]
        | true =>
            by_cases hodd : f.length % 2 = 0
            · have hp : isPlayableFrame f = true := by
                simp [isPlayableFrame]
                omega
              refine ⟨?_, by simp [playNextQ, hf, hodd], ?_⟩
              · simp [playNextQ, hf, hodd, List.filter_cons, hp]
              · intro g hg
                simp [playNextQ, hf, hodd] at hg
                subst hg
                exact hp
            · have hp : isPlayableFrame f = false := by
                simp [isPlayableFrame]
                omega
              simpa [playNextQ, hf, hodd, List.filter_cons, hp] using ih

theorem playNextQ_true_starts : ∀ q : List (List ℕ),
    (playNextQ true q).2.2.toList = (q.filter isPlayableFrame).take 1 := by
  intro q
  induction q with
  | nil => simp [playNextQ]
  | cons f rest ih =>
      by_cases hf : f.length < 2
      · have hp : isPlayableFrame f = false := by
          simp [isPlayableFrame]
          omega
        simpa [playNextQ, hf, List.filter_cons, hp] using ih
      · by_cases hodd : f.length % 2 = 0
        · have hp : isPlayableFrame f = true := by
            simp [isPlayableFrame]
            omega
          simp [playNextQ, hf, hodd, List.filter_cons, hp]
        · have hp : isPlayableFrame f = false := by
            simp [isPlayableFrame]
            omega
          simpa [playNextQ, hf, hodd, List.filter_cons, hp] using ih

theorem playNext_inv (ctxOk : Bool) (s : PBState) (L : List (List ℕ))
    (hL : s.played ++ s.queue.filter isPlayableFrame = L)
    (hplayed : ∀ f ∈ s.played, isPlayableFrame f = true)
    (hnow : s.nowPlaying = []) :
    PBInv L (playNext ctxOk s) := by
  obtain ⟨h1, h2, h3⟩ := playNextQ_spec ctxOk s.queue
  simp only [PBInv, playNext]
  refine ⟨?_, ?_, ?_, ?_⟩
  · rw [List.append_assoc, h1, hL]
  · rw [hnow]
    cases (playNextQ ctxOk s.queue).2.2 <;> simp
  · rw [hnow, h2]
    cases (playNextQ ctxOk s.queue).2.2 <;> simp
  · intro f hf
    rcases List.mem_append.mp hf with hmem | hmem
    · exact hplayed f hmem
    · cases hopt : (playNextQ ctxOk s.queue).2.2 with
      | none => rw [hopt] at hmem; simp at hmem
      | some g =>
          rw [hopt] at hmem
          simp at hmem
          rw [hmem]
          exact h3 g hopt

theorem pbStep_inv (L : List (List ℕ)) (s : PBState) (e : PBEvent)
    (h : PBInv L s) : PBInv (L ++ eventPlayableFrames e) (pbStep s e) := by
  obtain ⟨h1, h2, h3, h4⟩ := h
  cases e with
  | enq f ctxOk =>
      have hq : (s.queue ++ [f]).filter isPlayableFrame =
          s.queue.filter isPlayableFrame ++ eventPlayableFrames (PBEvent.enq f ctxOk) := by
        by_cases hf : isPlayableFrame f = true
        · simp [List.filter_append, eventPlayableFrames, hf]
        · rw [Bool.not_eq_true] at hf
          simp [List.filter_append, eventPlayableFrames, hf]
      show PBInv _ (enqueueAudio ctxOk f s)
      unfold enqueueAudio
      split_ifs with hp
      · refine ⟨?_, h2, ?_, h4⟩
        · show s.played ++ (s.queue ++ [f]).filter isPlayableFrame = _
          rw [hq, ← List.append_assoc, h1]
        · exact h3
      · have hnow : s.nowPlaying = [] := by
          by_contra hne
          exact hp (h3.mpr hne)
        refine playNext_inv ctxOk _ _ ?_ h4 hnow
        show s.played ++ (s.queue ++ [f]).filter isPlayableFrame = _
        rw [hq, ← List.append_assoc, h1]
  | done ctxOk =>
      show PBInv _ (playbackComplete ctxOk s)
      unfold playbackComplete
      cases hnp : s.nowPlaying with
      | nil => simpa [eventPlayableFrames] using ⟨h1, h2, h3, h4⟩
      | cons x rest =>
          have hrest : rest = [] := by
            have hlen := h2
            rw [hnp, List.length_cons] at hlen
            exact List.eq_nil_of_length_eq_zero (by omega)
          subst hrest
          refine playNext_inv ctxOk _ _ ?_ h4 rfl
          simpa [eventPlayableFrames] using h1

theorem pbRun_inv_aux : ∀ (evs : List PBEvent) (s : PBState) (L : List (List ℕ)),
    PBInv L s → PBInv (L ++ playableFrames evs) (evs.foldl pbStep s) := by
  intro evs
  induction evs with
  | nil => intro s L h; simpa [playableFrames] using h
  | cons e rest ih =>
      intro s L h
      have h2 := ih (pbStep s e) (L ++ eventPlayableFrames e) (pbStep_inv L s e h)
      simpa [playableFrames, List.append_assoc] using h2

theorem pbRun_inv (evs : List PBEvent) : PBInv (playableFrames evs) (pbRun evs) := by
  have h := pbRun_inv_aux evs pbInit [] (by exact ⟨rfl, by simp [pbInit], by simp [pbInit], by simp [pbInit]⟩)
  simpa [pbRun] using h

/-- C5: for any sequence of enqueues and playback completions, at most
one frame is ever playing at a time, and the frames played (in start
order) followed by the still-queued playable frames are exactly the
enqueued playable frames in enqueue order — strict FIFO, no reordering,
where a frame is playable when it has at least 2 bytes (shorter chunks
are skipped) and an even byteLength (odd chunks make the decode throw
and are dropped by the catch handler, line 306); in particular enqueuing
F1, F2, F3 interleaved with completions plays them as F1, F2, F3. -/
theorem c5_fifo_single_player (evs : List PBEvent) :
    (pbRun evs).nowPlaying.length ≤ 1
    ∧ (pbRun evs).played ++ (pbRun evs).queue.filter isPlayableFrame = playableFrames evs
    ∧ (pbRun [PBEvent.enq [0, 0] true, PBEvent.enq [0, 1] true, PBEvent.enq [1, 0] true,
        PBEvent.done true, PBEvent.done true, PBEvent.done true]).played =
        [[0, 0], [0, 1], [1, 0]] := by
  obtain ⟨h1, h2, h3, h4⟩ := pbRun_inv evs
  exact ⟨h2, h1, by decide⟩

/-- Counterexample to C8 as stated: while the two-byte frame `[0, 0]` is
playing, enqueueing the one-byte chunk `[5]` grows the queue from 0 to 1
entries — the queue length is affected until the chunk reaches the head. -/
theorem c8_short_chunk_cex :
    (pbRun [PBEvent.enq [0, 0] true]).queue.length = 0
    ∧ (pbRun [PBEvent.enq [0, 0] true, PBEvent.enq [5] true]).queue.length = 1
    ∧ [(5 : ℕ)].length < 2 := by
  decide

/-- C8 amended: a chunk shorter than 2 bytes is never played — for any
event sequence no such chunk appears in the play log; enqueued while
the queue is idle and empty, the operation is a complete no-op (queue
length unaffected, no playback attempted); when such a chunk sits at the
head of the queue, `playNextInQueue` skips it exactly as if it were
absent (no playback attempt for it); and a completion with a working
audio context starts precisely the first playable chunk in the queue,
past any short or malformed ones — playback of subsequent chunks
continues unimpeded. -/
theorem c8_short_chunks (evs : List PBEvent) (ctxOk : Bool) (f : List ℕ)
    (q : List (List ℕ)) (s : PBState) :
    (∀ g ∈ (pbRun evs).played, 2 ≤ g.length)
    ∧ (f.length < 2 → s.queue = [] → s.isPlaying = false → enqueueAudio ctxOk f s = s)
    ∧ (f.length < 2 → s.queue = f :: q →
        playNext ctxOk s = playNext ctxOk { s with queue := q })
    ∧ (s.nowPlaying ≠ [] →
        (playbackComplete true s).played =
          s.played ++ (s.queue.filter isPlayableFrame).take 1) := by
  refine ⟨?_, ?_, ?_, ?_⟩
  · intro g hg
    have hp := (pbRun_inv evs).2.2.2 g hg
    simp [isPlayableFrame] at hp
    exact hp.1
  · intro hf hq hp
    cases s with
    | mk queue isPlaying nowPlaying played =>
        simp only at hq hp
        subst hq hp
        simp [enqueueAudio, playNext, playNextQ, hf]
  · intro hf hq
    cases s with
    | mk queue isPlaying nowPlaying played =>
        simp only at hq
        subst hq
        simp [playNext, playNextQ, hf]
  · intro hnp
    cases s with
    | mk queue isPlaying nowPlaying played =>
        simp only at hnp
        cases nowPlaying with
        | nil => exact absurd rfl hnp
        | cons x rest => simp [playbackComplete, playNext, playNextQ_true_starts]

/-- Witness for C8's amended statement at a concrete busy state: the
one-byte chunk `[7]` at the head is skipped, and the completion starts
the playable `[0, 1]` queued behind it. -/
theorem c8_short_chunks_witness :
    (∀ g ∈ (pbRun [PBEvent.enq [0, 0] true]).played, 2 ≤ g.length)
    ∧ ([(7 : ℕ)].length < 2 → busyPB.queue = [] → busyPB.isPlaying = false →
        enqueueAudio true [7] busyPB = busyPB)
    ∧ ([(7 : ℕ)].length < 2 → busyPB.queue = [7] :: [[0, 1]] →
        playNext true busyPB = playNext true { busyPB with queue := [[0, 1]] })
    ∧ (busyPB.nowPlaying ≠ [] →
        (playbackComplete true busyPB).played =
          busyPB.played ++ (busyPB.queue.filter isPlayableFrame).take 1) :=
  c8_short_chunks [PBEvent.enq [0, 0] true] true [7] [[0, 1]] busyPB

theorem sentOK_sendImage (s : AppState) (h : SentOK s) : SentOK (sendPeriodicImageData s) := by
  unfold sendPeriodicImageData
  split_ifs with hg
  · intro r hr
    simp only [List.mem_append, List.mem_singleton] at hr
    rcases hr with hr | hr
    · exact h r hr
    · subst hr
      obtain ⟨h1, h2, h3, h4⟩ := hg
      refine ⟨fun hk => ?_, fun _ => ⟨h2, h4, h3, h1⟩⟩
      simp [sendSnapshot] at hk
  · exact h

theorem sentOK_workletFrame (s : AppState) (h : SentOK s) : SentOK (workletFrame s) := by
  unfold workletFrame
  split_ifs with hg
  · intro r hr
    simp only [List.mem_append, List.mem_singleton] at hr
    rcases hr with hr | hr
    · exact h r hr
    · subst hr
      refine ⟨fun _ => ⟨hg.1, hg.2⟩, fun hk => ?_⟩
      simp [sendSnapshot] at hk
  · exact h

theorem sentOK_startPeriodic (s : AppState) (h : SentOK s) :
    SentOK (startPeriodicImageSending s) := by
  unfold startPeriodicImageSending
  split_ifs
  · exact sentOK_sendImage { s with intervalActive := true } h
  · exact h
  · exact h

theorem sentOK_step (s : AppState) (e : AppEvent) (h : SentOK s) : SentOK (appStep s e) := by
  cases e with
  | toggle connectOk =>
      simp only [appStep, toggleRecording, stopRecording, startRecording, connectToGemini,
        cleanupAfterErrorOrClose, cleanupAudioNodes, stopPeriodicImageSending]
      split_ifs <;> exact h
  | setupComplete =>
      simp only [appStep, setupCompleteMsg, startRecording, connectToGemini,
        cleanupAfterErrorOrClose]
      split_ifs <;> first
        | exact h
        | exact sentOK_startPeriodic _ h
  | micResult ok =>
      simp only [appStep, micResolved, cleanupAudioNodes]
      split_ifs <;> first
        | exact h
        | exact sentOK_startPeriodic _ h
  | workletData =>
      simp only [appStep]
      split_ifs <;> first
        | exact h
        | exact sentOK_workletFrame _ h
  | imageTick =>
      simp only [appStep]
      split_ifs <;> first
        | exact h
        | exact sentOK_sendImage _ h
  | closeOrError =>
      simp only [appStep, cleanupAfterErrorOrClose]
      split_ifs <;> exact h
  | imageUpload => exact h
  | imageRemove => exact h

theorem appRun_sentOK_aux : ∀ (evs : List AppEvent) (s : AppState),
    SentOK s → SentOK (evs.foldl appStep s) := by
  intro evs
  induction evs with
  | nil => intro s h; exact h
  | cons e rest ih => intro s h; exact ih _ (sentOK_step s e h)

/-- Counterexample to C6 as stated: a close event interleaving a pending
`getUserMedia` leaves a stale attached worklet; after reconnecting, an
audio frame is transmitted while `isSetupComplete = false` (the session
is not Ready). -/
theorem c6_not_ready_send_cex :
    (appRun staleWorkletTrace).sent = [staleAudioRecord]
    ∧ ∃ r ∈ (appRun staleWorkletTrace).sent,
        ¬(r.sessionOpen = true ∧ r.isSetupComplete = true) := by
  refine ⟨by decide, staleAudioRecord, by decide, by decide⟩

/-- C6 amended: every transmission satisfied its guard at send time —
audio frames are guarded by session-exists and recording-active only
(not setup-complete), image sends by the full Ready conjunction — and a
chunk whose guard fails is dropped with no state change whatsoever
(never buffered). -/
theorem c6_send_guards (evs : List AppEvent) (s : AppState) :
    (∀ r ∈ (appRun evs).sent,
      (r.kind = SendKind.audio → r.sessionOpen = true ∧ r.isRecording = true)
      ∧ (r.kind = SendKind.image → r.sessionOpen = true ∧ r.isSetupComplete = true
          ∧ r.isRecording = true ∧ r.imageLoaded = true))
    ∧ (¬(s.sessionOpen ∧ s.isRecording) → workletFrame s = s)
    ∧ (¬(s.imageLoaded ∧ s.sessionOpen ∧ s.isRecording ∧ s.isSetupComplete) →
        sendPeriodicImageData s = s) := by
  refine ⟨appRun_sentOK_aux evs appInit ?_, ?_, ?_⟩
  · intro r hr
    simp [appInit] at hr
  · intro hg
    unfold workletFrame
    rw [if_neg hg]
  · intro hg
    unfold sendPeriodicImageData
    rw [if_neg hg]

/-- Witness for C6's amended statement at a concrete trace and state. -/
theorem c6_send_guards_witness :
    (∀ r ∈ (appRun [AppEvent.toggle true, AppEvent.setupComplete]).sent,
      (r.kind = SendKind.audio → r.sessionOpen = true ∧ r.isRecording = true)
      ∧ (r.kind = SendKind.image → r.sessionOpen = true ∧ r.isSetupComplete = true
          ∧ r.isRecording = true ∧ r.imageLoaded = true))
    ∧ (¬(appInit.sessionOpen ∧ appInit.isRecording) → workletFrame appInit = appInit)
    ∧ (¬(appInit.imageLoaded ∧ appInit.sessionOpen ∧ appInit.isRecording
          ∧ appInit.isSetupComplete) → sendPeriodicImageData appInit = appInit) :=
  c6_send_guards [AppEvent.toggle true, AppEvent.setupComplete] appInit

/-- Counterexample to C9 as stated: after loading an image, starting a
call, and removing the image, the periodic-send interval is still
running while no attachment is loaded (`removeImage` never stops it; the
interval is also started without requiring an attachment). -/
theorem c9_timer_cex :
    (appRun [AppEvent.imageUpload, AppEvent.toggle true, AppEvent.setupComplete,
      AppEvent.micResult true, AppEvent.imageRemove]).intervalActive = true
    ∧ (appRun [AppEvent.imageUpload, AppEvent.toggle true, AppEvent.setupComplete,
        AppEvent.micResult true, AppEvent.imageRemove]).imageLoaded = false := by
  decide

/-- C9 amended: the timer is activated only by
`startPeriodicImageSending` and only when a session exists, setup is
complete and recording is active — no attachment required;
`stopPeriodicImageSending`, `stopRecording` (when recording or
connected) and the error/close cleanup deactivate it; `removeImage`
leaves the timer untouched while clearing the attachment, and a tick
with no attachment loaded sends nothing. -/
theorem c9_timer_gating (s : AppState) :
    (startPeriodicImageSending s).intervalActive =
      (s.sessionOpen && s.isSetupComplete && s.isRecording)
    ∧ (stopPeriodicImageSending s).intervalActive = false
    ∧ (cleanupAfterErrorOrClose s).intervalActive = false
    ∧ (s.isRecording = true ∨ s.sessionOpen = true → (stopRecording s).intervalActive = false)
    ∧ (removeImage s).intervalActive = s.intervalActive
    ∧ (removeImage s).imageLoaded = false
    ∧ (s.imageLoaded = false → sendPeriodicImageData s = s) := by
  obtain ⟨so, ir, sc, il, ia, wa, pm, st⟩ := s
  refine ⟨?_, rfl, rfl, ?_, rfl, rfl, ?_⟩
  · cases so <;> cases sc <;> cases ir <;> cases il <;>
      simp [startPeriodicImageSending, sendPeriodicImageData]
  · intro h
    cases so <;> cases ir <;>
      simp_all [stopRecording, stopPeriodicImageSending, cleanupAudioNodes]
  · intro h
    subst h
    simp [sendPeriodicImageData]

/-- Witness for C9's amended statement at a concrete state. -/
theorem c9_timer_gating_witness :
    (startPeriodicImageSending noImageAppState).intervalActive =
      (noImageAppState.sessionOpen && noImageAppState.isSetupComplete
        && noImageAppState.isRecording)
    ∧ (stopPeriodicImageSending noImageAppState).intervalActive = false
    ∧ (cleanupAfterErrorOrClose noImageAppState).intervalActive = false
    ∧ (noImageAppState.isRecording = true ∨ noImageAppState.sessionOpen = true →
        (stopRecording noImageAppState).intervalActive = false)
    ∧ (removeImage noImageAppState).intervalActive = noImageAppState.intervalActive
    ∧ (removeImage noImageAppState).imageLoaded = false
    ∧ (noImageAppState.imageLoaded = false →
        sendPeriodicImageData noImageAppState = noImageAppState) :=
  c9_timer_gating noImageAppState

/-- Counterexample to C7 as stated: a clean close with code 1000 while
recording is still true surfaces the non-error "Disconnected.", not an
error status. -/
theorem c7_clean_close_cex :
    oncloseStatus 1000 true true = ("Disconnected.", false) := by
  decide

/-- C7 amended: a code-1000 close while not recording surfaces
"Call ended." as a non-error (for either `wasClean` value); while
recording, an error is surfaced exactly when the close was not clean;
a clean code-1000 close while recording surfaces the non-error
"Disconnected.". -/
theorem c7_close_status :
    oncloseStatus 1000 true false = ("Call ended.", false)
    ∧ oncloseStatus 1000 false false = ("Call ended.", false)
    ∧ oncloseStatus 1000 false true = ("Disconnected unexpectedly (Code: 1000)", true)
    ∧ oncloseStatus 1000 true true = ("Disconnected.", false) := by
  decide

end Spec2Proof
